import Mathlib

/-!
Verification development for the TypeRight browser extension
(`background.js`, `content.js`, `sidepanel.js`).

The JavaScript sources are shallowly embedded: each JS function the claims
touch is translated into an executable Lean definition over `String` /
`List Char` / explicit state records, and the claims are settled as theorems
about those definitions.  Strings are modelled as sequences of characters;
JS string helpers (`trim`, `toLowerCase`, `includes`, `split`) are embedded
for the ASCII whitespace/letter ranges actually exercised by the program.
-/

namespace TypeRight

/-! ## JS string primitives -/

/-- Whitespace class used by JS `\s` / `String.prototype.trim` (ASCII part). -/
def isSpaceJS (c : Char) : Bool :=
  c = ' ' || c = '\t' || c = '\n' || c = '\r' || c = '\x0b' || c = '\x0c'

/-- Embeds JS `String.prototype.trim` on a character list. -/
def jsTrimList (l : List Char) : List Char :=
  ((l.dropWhile isSpaceJS).reverse.dropWhile isSpaceJS).reverse

/-- Embeds JS `String.prototype.trim`. -/
def jsTrim (s : String) : String := String.mk (jsTrimList s.toList)

/-- Embeds JS `String.prototype.toLowerCase` (ASCII letters). -/
def lowerStr (s : String) : String := String.mk (s.toList.map Char.toLower)

/-- Pattern `pat` occurs literally at the head of `l`. -/
def startsList : List Char → List Char → Bool
  | [], _ => true
  | _ :: _, [] => false
  | p :: ps, c :: cs => p = c && startsList ps cs

/-- Pattern `pat` occurs somewhere in `l` (JS `String.prototype.includes`). -/
def hasSubList (pat : List Char) : List Char → Bool
  | [] => pat.isEmpty
  | c :: t => startsList pat (c :: t) || hasSubList pat t

/-- Embeds JS `String.prototype.includes`. -/
def hasSub (s pat : String) : Bool := hasSubList pat.toList s.toList

/-- Case-insensitive `startsList`; `pat` is given in lowercase. -/
def ciStarts : List Char → List Char → Bool
  | [], _ => true
  | _ :: _, [] => false
  | p :: ps, c :: cs => p = Char.toLower c && ciStarts ps cs

/-- Embeds JS `String.prototype.split('\n')`. -/
def splitNl : List Char → List (List Char)
  | [] => [[]]
  | '\n' :: t => [] :: splitNl t
  | c :: t =>
    match splitNl t with
    | [] => [[c]]
    | h :: rest => (c :: h) :: rest

/-! ## Regex scanners of `parseAIResponse` (background.js 433-488)

Each of the four extraction regexes is embedded as a deterministic scanner
that realizes the backtracking regex semantics for that particular pattern:
leftmost match, greedy `\s*`, lazy capture up to the first terminator
(terminator `$` matches only at the very end of the string, as in JS
without the `m` flag). -/

/-- Lazy capture: take characters until `isTerm` holds at the current
position (checked before each character is consumed). -/
def takeUntilTerm (isTerm : List Char → Bool) : List Char → List Char
  | [] => []
  | c :: t => if isTerm (c :: t) then [] else c :: takeUntilTerm isTerm t

/-- Embeds `\s*(.+?)` followed by a terminator alternation ending in `$`:
greedy whitespace, then a lazy capture of at least one character.  When
everything after the keyword is whitespace, `\s*` backtracks by one
character so the capture is that single whitespace character (which every
caller then trims away).  Returns `none` when the tail is empty (no match
at this keyword position). -/
def matchTail1 (isTerm : List Char → Bool) (rest : List Char) : Option (List Char) :=
  let w := rest.takeWhile isSpaceJS
  let r2 := rest.drop w.length
  match r2 with
  | [] => if w.isEmpty then none else some [w.getLastD ' ']
  | c :: t => some (c :: takeUntilTerm isTerm t)

/-- Embeds `\s*([\s\S]*?)` followed by a terminator alternation ending in
`$`: like `matchTail1` but the capture may be empty, so it always
succeeds. -/
def matchTail0 (isTerm : List Char → Bool) (rest : List Char) : List Char :=
  let w := rest.takeWhile isSpaceJS
  takeUntilTerm isTerm (rest.drop w.length)

/-- Terminator `(?:\n-|\n\n)` of the Revised/Alternative patterns. -/
def termNlDashOrBlank : List Char → Bool
  | '\n' :: '-' :: _ => true
  | '\n' :: '\n' :: _ => true
  | _ => false

/-- Terminator `\n\n` of the Summary pattern. -/
def termBlank : List Char → Bool
  | '\n' :: '\n' :: _ => true
  | _ => false

/-- Terminator `(?:\n\n|summary:)` (case-insensitive) of the Issues pattern. -/
def termIssues (l : List Char) : Bool :=
  termBlank l || ciStarts "summary:".toList l

/-- Embeds `content.match(/(?:revised|corrected):\s*(.+?)(?:\n-|\n\n|$)/is)`:
returns the capture group of the leftmost match. -/
def scanRevised : List Char → Option (List Char)
  | [] => none
  | c :: t =>
    match (if ciStarts "revised:".toList (c :: t)
           then matchTail1 termNlDashOrBlank ((c :: t).drop 8) else none) with
    | some cap => some cap
    | none =>
      match (if ciStarts "corrected:".toList (c :: t)
             then matchTail1 termNlDashOrBlank ((c :: t).drop 10) else none) with
      | some cap => some cap
      | none => scanRevised t

/-- Generic scanner for a literal keyword followed by `\s*(.+?)` and a
terminator; used for the Alternative pattern. -/
def scanKeyTail (key : List Char) (isTerm : List Char → Bool) : List Char → Option (List Char)
  | [] => none
  | c :: t =>
    match (if ciStarts key (c :: t)
           then matchTail1 isTerm ((c :: t).drop key.length) else none) with
    | some cap => some cap
    | none => scanKeyTail key isTerm t

/-- Embeds `content.match(/(?:alternative):\s*(.+?)(?:\n-|\n\n|$)/is)`. -/
def scanAlternative (l : List Char) : Option (List Char) :=
  scanKeyTail "alternative:".toList termNlDashOrBlank l

/-- The `\s+found:?\s*([\s\S]*?)(?:\n\n|summary:|$)` part of the Issues
pattern, applied after the `issues?` keyword. -/
def tryIssuesFound (r : List Char) : Option (List Char) :=
  let w := r.takeWhile isSpaceJS
  if w.isEmpty then none
  else
    let r2 := r.drop w.length
    if ciStarts "found".toList r2 then
      let r3 := r2.drop 5
      let r4 := match r3 with | ':' :: t => t | _ => r3
      some (matchTail0 termIssues r4)
    else none

/-- Embeds `content.match(/issues?\s+found:?\s*([\s\S]*?)(?:\n\n|summary:|$)/i)`:
the optional `s` is tried greedily first, as the regex engine does. -/
def scanIssues : List Char → Option (List Char)
  | [] => none
  | c :: t =>
    if ciStarts "issue".toList (c :: t) then
      match (match (c :: t).drop 5 with
             | x :: r6 => if Char.toLower x = 's' then tryIssuesFound r6 else none
             | [] => none) with
      | some cap => some cap
      | none =>
        match tryIssuesFound ((c :: t).drop 5) with
        | some cap => some cap
        | none => scanIssues t
    else scanIssues t

/-- Embeds `content.match(/summary:?\s*(.+?)(?:\n\n|$)/is)`: the optional
colon is consumed greedily and backtracked when the tail cannot match. -/
def scanSummary : List Char → Option (List Char)
  | [] => none
  | c :: t =>
    if ciStarts "summary".toList (c :: t) then
      match (match (c :: t).drop 7 with
             | ':' :: t2 => matchTail1 termBlank t2
             | _ => none) with
      | some cap => some cap
      | none =>
        match matchTail1 termBlank ((c :: t).drop 7) with
        | some cap => some cap
        | none => scanSummary t
    else scanSummary t

/-! ## Response Parser (background.js 433-516) -/

/-- Embeds `line.replace(/^[\d\-\*\•\.\)]\s*/, '')`: strips one leading
marker character and the whitespace after it. -/
def stripIssueMarker : List Char → List Char
  | [] => []
  | c :: t =>
    if c.isDigit || c = '-' || c = '*' || c = '•' || c = '.' || c = ')'
    then t.dropWhile isSpaceJS else c :: t

/-- The issue-lines pipeline of `parseAIResponse` (background.js 457-463). -/
def processIssueLines (cap : List Char) : List String :=
  (((splitNl cap).filter (fun line => decide (jsTrim (String.mk line) ≠ "")))
    |>.map (fun line => jsTrim (String.mk (stripIssueMarker line))))
    |>.filter (fun line =>
        decide (line.length > 0) && !(hasSub (lowerStr line) "none") && decide (line ≠ "-"))

/-- Embeds `.replace(/^[\-\*\•]\s*/, '')` applied to the trimmed summary. -/
def stripSummaryMarker : List Char → List Char
  | [] => []
  | c :: t =>
    if c = '-' || c = '*' || c = '•' then t.dropWhile isSpaceJS else c :: t

/-- The argument object passed to `formatSuggestion` (background.js 484). -/
structure FormatArgs where
  hasIssues : Bool
  issues : List String
  correctedText : String
  alternative : String
  summary : String
deriving Repr, DecidableEq

/-- The structured result object built by `parseAIResponse`. -/
structure ParsedResult where
  hasIssues : Bool
  issues : List String
  correctedText : String
  alternative : String
  summary : String
  explanation : String
  suggestion : String
deriving Repr, DecidableEq

/-- Embeds `formatSuggestion` (background.js 493-516). -/
def formatSuggestion (result : FormatArgs) : String :=
  if !result.hasIssues then "Your text looks good! No grammar issues found."
  else
    let s1 :=
      if result.issues.length > 0 then
        "**Issues Found:**\n" ++
          String.join (result.issues.enum.map
            (fun p => toString (p.1 + 1) ++ ". " ++ p.2 ++ "\n"))
      else ""
    let s2 := if result.alternative ≠ "" then s1 ++ "\n**Alternative:**\n" ++ result.alternative ++ "\n" else s1
    let s3 := if result.summary ≠ "" then s2 ++ "\n**Summary:**\n" ++ result.summary else s2
    s3

/-- Embeds `parseAIResponse` (background.js 433-488). -/
def parseAIResponse (content originalText : String) : ParsedResult :=
  let cl := content.toList
  let contentLower := lowerStr content
  let correctedText :=
    match scanRevised cl with
    | some cap =>
      let revised := jsTrim (String.mk cap)
      if !(hasSub (lowerStr revised) "no correction") && decide (revised.length > 0)
      then revised else originalText
    | none => originalText
  let alternative :=
    match scanAlternative cl with
    | some cap => jsTrim (String.mk cap)
    | none => ""
  let issues :=
    match scanIssues cl with
    | some cap => processIssueLines cap
    | none => []
  let summary :=
    match scanSummary cl with
    | some cap => String.mk (stripSummaryMarker (jsTrimList cap))
    | none => ""
  let hasIssues :=
    decide (issues.length > 0) ||
      (decide (correctedText ≠ originalText) && !(hasSub contentLower "no correction"))
  { hasIssues := hasIssues, issues := issues, correctedText := correctedText,
    alternative := alternative, summary := summary, explanation := content,
    suggestion := formatSuggestion
      { hasIssues := hasIssues, issues := issues, correctedText := correctedText,
        alternative := alternative, summary := summary } }

/-! ## AI Client (background.js 352-428)

The network round trip is represented by an `AIOutcome` oracle: which of the
mutually exclusive transport outcomes the `fetch` call produced.
`checkGrammarWithAI` embeds the error normalization of its `try`/`catch`
(an internally thrown `Error` whose message does not contain `fetch` is
rethrown unchanged). -/

/-- Possible outcomes of the `fetch` round trip inside `checkGrammarWithAI`. -/
inductive AIOutcome where
  /-- The abort controller fired (`error.name === 'AbortError'`). -/
  | abortTimeout
  /-- `response.ok` was false, carrying the HTTP status. -/
  | httpStatus (status : Nat)
  /-- The JSON body had no `message.content`. -/
  | missingContent
  /-- A transport-level rejection carrying the raw error message. -/
  | fetchFailure (msg : String)
  /-- A successful reply whose `message.content` is the given text. -/
  | reply (content : String)
deriving Repr, DecidableEq

/-- Embeds `checkGrammarWithAI` (background.js 352-428): a failure is the
human-readable message of the thrown `Error`. -/
def checkGrammarWithAI (text : String) (outcome : AIOutcome) : Except String ParsedResult :=
  match outcome with
  | .abortTimeout => .error "Request timeout - AI service took too long to respond"
  | .httpStatus status => .error ("AI service returned status " ++ toString status)
  | .missingContent => .error "Invalid response from Ollama"
  | .fetchFailure msg =>
      if hasSub msg "fetch"
      then .error "Cannot connect to AI service. Make sure Ollama is running (ollama serve)"
      else .error msg
  | .reply content => .ok (parseAIResponse content text)

/-! ## Coordinator state (background.js 16-56) -/

/-- A history entry as built by `handleGrammarCheck` (background.js 264-277
and 309-322). -/
structure HistoryEntry where
  timestamp : Nat
  originalText : String
  suggestion : String
  correctedText : String
  issues : List String
  alternative : String
  summary : String
  explanation : String
  elementId : String
  tabId : Option Nat
  hasIssues : Bool
  noIssues : Bool
deriving Repr, DecidableEq

/-- The background service worker's mutable state: the bounded history and
the side-panel port registry (`portKey ↦ tabId`).  The `port` object itself
is represented by its key. -/
structure CoordState where
  checkHistory : List HistoryEntry
  sidePanelPorts : List (String × Option Nat)
deriving Repr, DecidableEq

/-- Messages posted over a side-panel port (coordinator → viewer). -/
inductive PanelMsg where
  | statusUpdate (message mtype : String)
  | displaySuggestion (data : HistoryEntry)
  | displayError (error : String)
  | removeSuggestion (timestamp : Nat) (elementId : Option String)
  | historyUpdate (history : List HistoryEntry)
deriving Repr, DecidableEq

/-- Messages sent to a tab's content script. -/
inductive TabMsg where
  | showSuggestion (elementId suggestion originalText : String)
deriving Repr, DecidableEq

/-- Observable actions of the coordinator. -/
inductive Effect where
  /-- `port.postMessage` on the port stored under `portKey`. -/
  | portMsg (portKey : String) (msg : PanelMsg)
  /-- `chrome.tabs.sendMessage(tabId, …)`. -/
  | tabMsg (tabId : Nat) (msg : TabMsg)
  /-- One network-facing call of the AI client with the normalized text. -/
  | aiCall (text : String)
deriving Repr, DecidableEq

/-- Embeds `hasSidePanelConnection` (background.js 22-34). -/
def hasSidePanelConnection (s : CoordState) (tabId : Option Nat) : Bool :=
  match tabId with
  | none => false
  | some _ => s.sidePanelPorts.any (fun p => p.2 = tabId)

/-- Embeds `broadcastToSidePanels` (background.js 39-56), returning the
`postMessage` deliveries it performs. -/
def broadcastToSidePanels (ports : List (String × Option Nat)) (targetTabId : Option Nat)
    (msg : PanelMsg) : List Effect :=
  ports.filterMap (fun p =>
    if targetTabId = none ∨ p.2 = targetTabId ∨ p.2 = none
    then some (Effect.portMsg p.1 msg) else none)

/-! ## handleGrammarCheck (background.js 233-347) -/

/-- `CONFIG.minTextLength` (background.js 12). -/
def bgMinTextLength : Nat := 25

/-- One `checkGrammar` request together with the wall-clock time
(`Date.now()`) and the AI transport outcome observed while handling it. -/
structure GrammarRequest where
  text : String
  elementId : String
  tabId : Nat
  now : Nat
  outcome : AIOutcome
deriving Repr, DecidableEq

/-- The history insertion of `handleGrammarCheck` (background.js 279-284 and
324-328): `unshift` then trim to the last 50 checks. -/
def insertHistory (entry : HistoryEntry) (history : List HistoryEntry) : List HistoryEntry :=
  let h := entry :: history
  if h.length > 50 then h.take 50 else h

/-- The history entry built on the has-issues branch (background.js 264-277). -/
def mkIssuesEntry (req : GrammarRequest) (normalizedText : String) (r : ParsedResult) :
    HistoryEntry :=
  { timestamp := req.now, originalText := normalizedText, suggestion := r.suggestion,
    correctedText := r.correctedText, issues := r.issues, alternative := r.alternative,
    summary := r.summary, explanation := r.explanation, elementId := req.elementId,
    tabId := some req.tabId, hasIssues := true, noIssues := false }

/-- The history entry built on the no-issues branch (background.js 309-322);
`result.correctedText || text` falls back to the raw message text. -/
def mkNoIssuesEntry (req : GrammarRequest) (normalizedText : String) (r : ParsedResult) :
    HistoryEntry :=
  { timestamp := req.now, originalText := normalizedText,
    suggestion := "Your text looks good! No grammar issues found.",
    correctedText := if r.correctedText = "" then req.text else r.correctedText,
    issues := r.issues, alternative := r.alternative,
    summary := r.summary, explanation := r.explanation, elementId := req.elementId,
    tabId := some req.tabId, hasIssues := false, noIssues := true }

/-- Embeds `handleGrammarCheck` (background.js 233-347).  Returns the state
after completion and the observable effects in program order.  Port
connections and disconnections interleaved with the awaited AI call are not
modelled: the port registry is read from the single state `s` (the code
re-reads `hasSidePanelConnection` after the await against the same
registry). -/
def handleGrammarCheck (req : GrammarRequest) (s : CoordState) : CoordState × List Effect :=
  let normalizedText := jsTrim req.text
  if normalizedText.length < bgMinTextLength then (s, [])
  else
    let panelConnectedInitially := hasSidePanelConnection s (some req.tabId)
    let e0 :=
      (if panelConnectedInitially
       then broadcastToSidePanels s.sidePanelPorts (some req.tabId)
              (.statusUpdate "Checking with Ollama…" "working")
       else []) ++ [Effect.aiCall normalizedText]
    match checkGrammarWithAI normalizedText req.outcome with
    | .error msg =>
        (s, e0 ++ broadcastToSidePanels s.sidePanelPorts (some req.tabId) (.displayError msg))
    | .ok r =>
        let panelConnected := hasSidePanelConnection s (some req.tabId)
        if r.hasIssues then
          let entry := mkIssuesEntry req normalizedText r
          ({ s with checkHistory := insertHistory entry s.checkHistory },
           e0 ++ [Effect.tabMsg req.tabId (.showSuggestion req.elementId r.suggestion req.text)]
              ++ (if panelConnected
                  then broadcastToSidePanels s.sidePanelPorts (some req.tabId)
                         (.displaySuggestion entry)
                  else []))
        else
          let entry := mkNoIssuesEntry req normalizedText r
          ({ s with checkHistory := insertHistory entry s.checkHistory },
           e0 ++ (if panelConnected
                  then broadcastToSidePanels s.sidePanelPorts (some req.tabId)
                         (.displaySuggestion entry)
                  else []))

/-- The entry a `handleGrammarCheck` completion appends to history, if any
(none when the text is below the minimum length or the AI client failed).
The fields never depend on the coordinator state. -/
def handledEntry (req : GrammarRequest) : Option HistoryEntry :=
  let normalizedText := jsTrim req.text
  if normalizedText.length < bgMinTextLength then none
  else
    match checkGrammarWithAI normalizedText req.outcome with
    | .error _ => none
    | .ok r =>
        some (if r.hasIssues then mkIssuesEntry req normalizedText r
              else mkNoIssuesEntry req normalizedText r)

/-! ## runtime.onMessage dispatcher, `checkGrammar` case (background.js 194-228) -/

/-- What `sendResponse` is called with. -/
structure RuntimeResponse where
  success : Bool
  panelOpen : Option Bool
  error : Option String
deriving Repr, DecidableEq

/-- Embeds the `chrome.runtime.onMessage` listener for a `checkGrammar`
message (background.js 194-215).  `senderTab` is `sender.tab?.id`; the JS
guard `!tabId` is true both for a missing tab and for the number `0`. -/
def onCheckGrammarMessage (text elementId : String) (now : Nat) (outcome : AIOutcome)
    (senderTab : Option Nat) (s : CoordState) : RuntimeResponse × CoordState × List Effect :=
  match senderTab with
  | none => ({ success := false, panelOpen := none, error := some "No tab ID available" }, s, [])
  | some t =>
    if t = 0 then
      ({ success := false, panelOpen := none, error := some "No tab ID available" }, s, [])
    else if !(hasSidePanelConnection s (some t)) then
      ({ success := false, panelOpen := some false, error := none }, s, [])
    else
      let r := handleGrammarCheck
        { text := text, elementId := elementId, tabId := t, now := now, outcome := outcome } s
      ({ success := true, panelOpen := some true, error := none }, r.1, r.2)

/-! ## dismissEntry (background.js 142-164) and the side panel's removal
(sidepanel.js 693-707) -/

/-- JS truthiness of the optional `elementId` field (`null`/`undefined` and
the empty string are falsy). -/
def jsStrTruthy : Option String → Bool
  | none => false
  | some x => decide (x ≠ "")

/-- The removal predicate shared by background.js 148-152 and
sidepanel.js 700-704: same timestamp, and same element id whenever a truthy
element id was given. -/
def dismissMatches (ts : Nat) (eid : Option String) (entry : HistoryEntry) : Bool :=
  decide (entry.timestamp = ts) &&
    (if jsStrTruthy eid then decide (entry.elementId = eid.getD "") else true)

/-- Embeds the `dismissEntry` case of the side-panel port listener
(background.js 142-164).  A missing timestamp is a no-op; otherwise the
history is filtered and, when its length changed, a `removeSuggestion`
notice is broadcast to all panels (`targetTabId = null`). -/
def handleDismissEntry (timestamp : Option Nat) (elementId : Option String)
    (s : CoordState) : CoordState × List Effect :=
  match timestamp with
  | none => (s, [])
  | some ts =>
    let beforeLength := s.checkHistory.length
    let newHistory := s.checkHistory.filter (fun entry => !(dismissMatches ts elementId entry))
    if newHistory.length ≠ beforeLength then
      ({ s with checkHistory := newHistory },
       broadcastToSidePanels s.sidePanelPorts none (.removeSuggestion ts elementId))
    else
      ({ s with checkHistory := newHistory }, [])

/-! ## Viewer session (sidepanel.js) -/

/-- Embeds the state update of `renderSuggestions` (sidepanel.js 220-231):
the local list becomes the first 10 entries of the rendered list. -/
def spRenderSuggestions (suggestions : List HistoryEntry) : List HistoryEntry :=
  suggestions.take 10

/-- Embeds the `historyUpdate` case of `handlePortMessage`
(sidepanel.js 83-91): `none` stands for a missing or non-array `history`
field.  Returns the new local suggestion list. -/
def spHandleHistoryUpdate (history : Option (List HistoryEntry))
    (localSuggestions : List HistoryEntry) : List HistoryEntry :=
  match history with
  | some h =>
      if h.length > 0 then spRenderSuggestions h
      else if localSuggestions.length = 0 then spRenderSuggestions []
      else localSuggestions
  | none =>
      if localSuggestions.length = 0 then spRenderSuggestions []
      else localSuggestions

/-- Embeds `removeSuggestion` (sidepanel.js 693-707): filter the local list
by the same predicate and re-render. -/
def spRemoveSuggestion (timestamp : Option Nat) (elementId : Option String)
    (localSuggestions : List HistoryEntry) : List HistoryEntry :=
  match timestamp with
  | none => localSuggestions
  | some ts =>
      spRenderSuggestions
        (localSuggestions.filter (fun entry => !(dismissMatches ts elementId entry)))

/-! ## Page Monitor (content.js)

The content script is modelled as a transition system.  DOM events carry
the element id derived by `getElementId` and the field's current text as
read by `getTextContent`; timer handles are modelled by unique numeric ids
so that a cleared or superseded timer can never fire (`clearTimeout`).
Timer durations (2000 ms typing delay vs 250 ms click delay) are not
modelled — only which timer exists and may fire.  The `accepted` flag of a
timer firing is the background's `response.success`, which gates the
`lastCheckedText` update. -/

/-- `CONFIG.minTextLength` (content.js 9). -/
def ctMinTextLength : Nat := 25

/-- Remove the binding of a key from an association list (a `Map.delete`). -/
def aremove (k : String) (l : List (String × α)) : List (String × α) :=
  l.filter (fun p => !(p.1 == k))

/-- Overwrite the binding of a key in an association list (a `Map.set`). -/
def aset (k : String) (v : α) (l : List (String × α)) : List (String × α) :=
  (k, v) :: aremove k l

/-- The content script's mutable state (content.js 15-20; `activeElement`
only feeds element re-resolution for rendering and is not modelled). -/
structure ContentState where
  typingTimers : List (String × Nat)
  lastCheckedText : List (String × String)
  sidePanelOpen : Bool
  nextTimerId : Nat
deriving Repr, DecidableEq

/-- Observable network-facing action of the content script: the
`chrome.runtime.sendMessage({action:'checkGrammar', …})` call. -/
inductive CEffect where
  | sendCheckGrammar (elementId text : String)
deriving Repr, DecidableEq

/-- Embeds `scheduleGrammarCheck` (content.js 247-287) for an editable
element carrying text `rawText`.  The `immediate` flag only selects the
timer duration, which is not modelled. -/
def scheduleGrammarCheck (elementId rawText : String) (s : ContentState) : ContentState :=
  if !s.sidePanelOpen then s
  else
    let text := jsTrim rawText
    if text.length < ctMinTextLength then
      { s with typingTimers := aremove elementId s.typingTimers }
    else if s.lastCheckedText.lookup elementId = some text then s
    else
      { s with typingTimers := aset elementId s.nextTimerId s.typingTimers,
               nextTimerId := s.nextTimerId + 1 }

/-- Embeds `checkGrammar` (content.js 148-214), run when the element's timer
fires; `currentText` is the field text at fire time and `accepted` is
whether the background responded `{success:true}`. -/
def checkGrammarFire (elementId currentText : String) (accepted : Bool)
    (s : ContentState) : ContentState × List CEffect :=
  let s1 := { s with typingTimers := aremove elementId s.typingTimers }
  if !s1.sidePanelOpen then (s1, [])
  else
    let text := jsTrim currentText
    if text.length < ctMinTextLength then (s1, [])
    else if s1.lastCheckedText.lookup elementId = some text then (s1, [])
    else
      let effs := [CEffect.sendCheckGrammar elementId text]
      if accepted then
        ({ s1 with lastCheckedText := aset elementId text s1.lastCheckedText }, effs)
      else (s1, effs)

/-- Embeds `updateSidePanelStatus` (content.js 324-336). -/
def updateSidePanelStatus (isOpen : Bool) (s : ContentState) : ContentState :=
  if s.sidePanelOpen = isOpen then s
  else if isOpen then { s with sidePanelOpen := true }
  else { s with sidePanelOpen := false, typingTimers := [], lastCheckedText := [] }

/-- DOM / timer / messaging events driving the content script.  `input` and
`focus` carry whether the target matched `EDITABLE_SELECTORS`; `click`
carries the editable target resolved by `getEditableTarget` (none when no
editable ancestor exists).  `timerFire` fires the pending timer `timerId`
of `elementId`, reading the field's current text. -/
inductive CEvent where
  | input (elementId text : String) (editable : Bool)
  | focus (elementId text : String) (editable : Bool)
  | click (editableTarget : Option (String × String))
  | timerFire (elementId : String) (timerId : Nat) (text : String) (accepted : Bool)
  | panelStatus (isOpen : Bool)
deriving Repr, DecidableEq

/-- One step of the content script: `handleInput` (content.js 52-68),
`handleFocus` (73-80), `handleClick` (82-91), a timer callback
(content.js 275-284, only runnable while that timer is still registered),
or a `sidePanelStatus` message (236-238). -/
def cstep (s : ContentState) (ev : CEvent) : ContentState × List CEffect :=
  match ev with
  | .input elementId text editable =>
      if editable then (scheduleGrammarCheck elementId text s, []) else (s, [])
  | .focus elementId text editable =>
      if editable then (scheduleGrammarCheck elementId text s, []) else (s, [])
  | .click target =>
      match target with
      | some (elementId, text) => (scheduleGrammarCheck elementId text s, [])
      | none => (s, [])
  | .timerFire elementId timerId text accepted =>
      if s.typingTimers.lookup elementId = some timerId
      then checkGrammarFire elementId text accepted s
      else (s, [])
  | .panelStatus isOpen => (updateSidePanelStatus isOpen s, [])

/-- Run the content script over a sequence of events, accumulating the
network-facing effects. -/
def crun (s : ContentState) : List CEvent → ContentState × List CEffect
  | [] => (s, [])
  | ev :: evs =>
      let r1 := cstep s ev
      let r2 := crun r1.1 evs
      (r2.1, r1.2 ++ r2.2)

/-- The (element id, raw field text) an event carries, if any. -/
def evFieldText : CEvent → Option (String × String)
  | .input elementId text _ => some (elementId, text)
  | .focus elementId text _ => some (elementId, text)
  | .click target => target
  | .timerFire elementId _ text _ => some (elementId, text)
  | .panelStatus _ => none

/-- Whether an effect is a `checkGrammar` request for field `f`. -/
def isSendFor (f : String) : CEffect → Bool
  | .sendCheckGrammar elementId _ => elementId == f

/-! ## Sample values used by concrete witnesses -/

/-- A sample history entry. -/
def sampleEntry : HistoryEntry :=
  { timestamp := 100, originalText := "aaa", suggestion := "sugg", correctedText := "corr",
    issues := [], alternative := "", summary := "", explanation := "expl",
    elementId := "a", tabId := some 1, hasIssues := true, noIssues := false }

/-- A second sample history entry with the same (timestamp, elementId) key. -/
def sampleEntry2 : HistoryEntry := { sampleEntry with originalText := "bbb" }

/-- A model reply containing only a differing Revised line. -/
def exBareReply : String := "Revised: Better text here."

/-- The original text paired with `exBareReply`. -/
def exBareOriginal : String := "orig text"

/-- The format arguments that `parseAIResponse exBareReply exBareOriginal`
hands to `formatSuggestion`. -/
def exBareArgs : FormatArgs :=
  { hasIssues := true, issues := [], correctedText := "Better text here.",
    alternative := "", summary := "" }

/-- Sample coordinator state whose only panel is bound to tab 3. -/
def noPanelState : CoordState :=
  { checkHistory := [sampleEntry], sidePanelPorts := [("p1", some 3)] }

/-- Sample request whose AI reply succeeds with a differing Revised line. -/
def sampleRequest : GrammarRequest :=
  { text := "I has went to the store yesterday and buy some milk.",
    elementId := "field1", tabId := 3, now := 42,
    outcome := .reply "Revised: I went to the store yesterday and bought some milk." }

/-- Sample request whose AI call times out. -/
def failingRequest : GrammarRequest :=
  { text := "This text is long enough to be grammar checked.",
    elementId := "field1", tabId := 3, now := 43, outcome := .abortTimeout }

/-- Sample coordinator state with two history entries sharing the key
(timestamp 100, element "a") and one connected panel. -/
def exDismissState : CoordState :=
  { checkHistory := [sampleEntry, sampleEntry2], sidePanelPorts := [("p1", some 1)] }

/-- The content script's initial state (content.js 15-20). -/
def cinit : ContentState :=
  { typingTimers := [], lastCheckedText := [], sidePanelOpen := false, nextTimerId := 0 }

/-- Sample event trace in which field `f1` only ever carries short text. -/
def shortEvents : List CEvent :=
  [.panelStatus true, .input "f1" "  short  " true, .focus "f1" "short" true,
   .click (some ("f1", "short")), .timerFire "f1" 0 "short" true]

/-! ## Effect discriminators (used to state the error-path claim) -/

/-- Whether an effect is a `displayError` delivery to a side panel. -/
def isDisplayErrorEff : Effect → Bool
  | .portMsg _ (.displayError _) => true
  | _ => false

/-- Whether an effect is a message to a tab's content script. -/
def isTabMsgEff : Effect → Bool
  | .tabMsg _ _ => true
  | _ => false

/-- Whether an effect is an AI-client invocation. -/
def isAiCallEff : Effect → Bool
  | .aiCall _ => true
  | _ => false

/-- Every event that concerns field `f` carries text whose trimmed length is
below the configured minimum. -/
def evShortFor (f : String) (ev : CEvent) : Bool :=
  match evFieldText ev with
  | some (id, txt) => !(id == f) || decide ((jsTrim txt).length < ctMinTextLength)
  | none => true

/-! ## Claim theorems -/

/-- C4: for every model reply string and original text, the parser sets
`hasIssues` to true if and only if the extracted issues list is non-empty,
or the extracted corrected text differs from the original text and the
reply (lowercased) does not contain the phrase "no correction". -/
theorem parseAIResponse_hasIssues_iff (content originalText : String) :
    (parseAIResponse content originalText).hasIssues = true ↔
      ((parseAIResponse content originalText).issues ≠ [] ∨
        ((parseAIResponse content originalText).correctedText ≠ originalText ∧
          ¬ hasSub (lowerStr content) "no correction" = true)) := by
  have h : (parseAIResponse content originalText).hasIssues =
      (decide ((parseAIResponse content originalText).issues.length > 0) ||
        (decide ((parseAIResponse content originalText).correctedText ≠ originalText) &&
          !(hasSub (lowerStr content) "no correction"))) := rfl
  rw [h]
  simp [List.length_pos]

/-- Witness for C4 at a concrete reply and original text. -/
theorem parseAIResponse_hasIssues_iff_witness :
    (parseAIResponse exBareReply exBareOriginal).hasIssues = true ↔
      ((parseAIResponse exBareReply exBareOriginal).issues ≠ [] ∨
        ((parseAIResponse exBareReply exBareOriginal).correctedText ≠ exBareOriginal ∧
          ¬ hasSub (lowerStr exBareReply) "no correction" = true)) :=
  parseAIResponse_hasIssues_iff exBareReply exBareOriginal

/-- C10: a parsed result with `hasIssues = true` but an empty issues list,
empty alternative and empty summary is formatted as the empty string. -/
theorem formatSuggestion_empty_on_bare_revision (r : FormatArgs)
    (h1 : r.hasIssues = true) (h2 : r.issues = []) (h3 : r.alternative = "")
    (h4 : r.summary = "") : formatSuggestion r = "" := by
  simp [formatSuggestion, h1, h2, h3, h4]

/-- Witness for C10: a reply containing only a differing Revised line parses
to `hasIssues = true` with an empty formatted suggestion string. -/
theorem formatSuggestion_empty_on_bare_revision_witness :
    (parseAIResponse exBareReply exBareOriginal).hasIssues = true ∧
    (parseAIResponse exBareReply exBareOriginal).suggestion = "" := by
  refine ⟨by decide, ?_⟩
  have h := formatSuggestion_empty_on_bare_revision exBareArgs rfl rfl rfl rfl
  calc (parseAIResponse exBareReply exBareOriginal).suggestion
      = formatSuggestion exBareArgs := by decide
    _ = "" := h

/-- C8: a `historyUpdate` with a non-empty history array replaces the local
suggestion list wholesale, truncated to the 10 most recent; an empty or
absent history array is ignored when the local list is non-empty, and
yields the empty list when the local list is already empty. -/
theorem spHandleHistoryUpdate_spec (h localSuggestions : List HistoryEntry) :
    (h ≠ [] → spHandleHistoryUpdate (some h) localSuggestions = h.take 10) ∧
    (localSuggestions ≠ [] →
        spHandleHistoryUpdate (some []) localSuggestions = localSuggestions ∧
        spHandleHistoryUpdate none localSuggestions = localSuggestions) ∧
    spHandleHistoryUpdate (some []) ([] : List HistoryEntry) = [] ∧
    spHandleHistoryUpdate none ([] : List HistoryEntry) = [] := by
  refine ⟨fun hne => ?_, fun hne => ⟨?_, ?_⟩, by simp [spHandleHistoryUpdate, spRenderSuggestions],
    by simp [spHandleHistoryUpdate, spRenderSuggestions]⟩ <;>
    simp [spHandleHistoryUpdate, spRenderSuggestions, List.length_pos.mpr hne,
      List.length_eq_zero, hne]

/-- Witness for C8 at concrete lists. -/
theorem spHandleHistoryUpdate_spec_witness :
    spHandleHistoryUpdate (some [sampleEntry]) [sampleEntry2] = [sampleEntry].take 10 ∧
    spHandleHistoryUpdate (some []) [sampleEntry2] = [sampleEntry2] := by
  have h := spHandleHistoryUpdate_spec [sampleEntry] [sampleEntry2]
  exact ⟨h.1 (by decide), (h.2.1 (by decide)).1⟩

/-- C9: a broadcast targeted at a specific tab is also delivered to every
connected side-panel port whose recorded tab id is null, whatever the
message and whatever the target tab. -/
theorem broadcastToSidePanels_unbound_port_receives
    (ports : List (String × Option Nat)) (k : String) (t : Nat) (msg : PanelMsg)
    (hk : (k, (none : Option Nat)) ∈ ports) :
    Effect.portMsg k msg ∈ broadcastToSidePanels ports (some t) msg := by
  unfold broadcastToSidePanels
  exact List.mem_filterMap.mpr ⟨(k, none), hk, by simp⟩

/-- Witness for C9 at a concrete registry. -/
theorem broadcastToSidePanels_unbound_port_receives_witness :
    Effect.portMsg "p2" (.displayError "err") ∈
      broadcastToSidePanels [("p1", some 7), ("p2", none)] (some 3) (.displayError "err") :=
  broadcastToSidePanels_unbound_port_receives _ "p2" 3 _ (by decide)

/-- C3: a `checkGrammar` request for a real tab with no side-panel viewer
attached to that tab is answered `{success:false, panelOpen:false}`, the
grammar-check path is not invoked, no effect (in particular no
network-facing action) is performed, and the coordinator state is
unchanged. -/
theorem onCheckGrammarMessage_no_panel_rejects
    (text elementId : String) (now : Nat) (outcome : AIOutcome) (t : Nat) (s : CoordState)
    (ht : t ≠ 0) (hconn : hasSidePanelConnection s (some t) = false) :
    onCheckGrammarMessage text elementId now outcome (some t) s =
      ({ success := false, panelOpen := some false, error := none }, s, []) := by
  unfold onCheckGrammarMessage
  simp [ht, hconn]

/-- Witness for C3 at a concrete state and request. -/
theorem onCheckGrammarMessage_no_panel_rejects_witness :
    onCheckGrammarMessage "Some sufficiently long sample text to check." "field1" 5
        (.reply "ok") (some 7) noPanelState
      = ({ success := false, panelOpen := some false, error := none }, noPanelState, []) :=
  onCheckGrammarMessage_no_panel_rejects _ _ _ _ _ _ (by decide) (by decide)

/-! ## History lemmas shared by C1 and C2 -/

/-- Membership in an inserted history comes from the new entry or the old
history. -/
theorem mem_insertHistory {e' e : HistoryEntry} {h : List HistoryEntry}
    (hm : e' ∈ insertHistory e h) : e' = e ∨ e' ∈ h := by
  simp only [insertHistory] at hm
  split at hm
  · simpa using List.take_subset 50 (e :: h) hm
  · simpa using hm

/-- Inserting into a history of at most 50 entries never leaves more than
50 entries. -/
theorem insertHistory_length_le {e : HistoryEntry} {h : List HistoryEntry}
    (hle : h.length ≤ 50) : (insertHistory e h).length ≤ 50 := by
  simp only [insertHistory]
  split
  · simp [List.length_take]
  · next hgt =>
      simp only [List.length_cons] at hgt ⊢
      omega

/-- On a history of at most 50 entries the insertion is exactly
`take 50 ∘ cons`. -/
theorem insertHistory_eq_take {e : HistoryEntry} {h : List HistoryEntry}
    (hle : h.length ≤ 50) : insertHistory e h = (e :: h).take 50 := by
  simp only [insertHistory]
  split
  · rfl
  · next hgt =>
      refine (List.take_of_length_le ?_).symm
      simp only [List.length_cons] at hgt ⊢
      omega

/-- The history after a `handleGrammarCheck` completion is the old history
with `handledEntry` inserted, when one exists. -/
theorem handleGrammarCheck_fst_checkHistory (req : GrammarRequest) (s : CoordState) :
    (handleGrammarCheck req s).1.checkHistory =
      (match handledEntry req with
       | none => s.checkHistory
       | some e => insertHistory e s.checkHistory) := by
  unfold handleGrammarCheck handledEntry
  by_cases hlen : (jsTrim req.text).length < bgMinTextLength
  · simp [hlen]
  · simp only [hlen, if_false]
    cases hres : checkGrammarWithAI (jsTrim req.text) req.outcome with
    | error msg => simp [hres]
    | ok r =>
        by_cases hi : r.hasIssues <;> simp [hres, hi]

/-- Specialization of `handleGrammarCheck_fst_checkHistory` when no entry is
inserted. -/
theorem handleGrammarCheck_hist_none {req : GrammarRequest} {s : CoordState}
    (h : handledEntry req = none) :
    (handleGrammarCheck req s).1.checkHistory = s.checkHistory := by
  have hstep := handleGrammarCheck_fst_checkHistory req s
  rw [h] at hstep
  exact hstep

/-- Specialization of `handleGrammarCheck_fst_checkHistory` when an entry is
inserted. -/
theorem handleGrammarCheck_hist_some {req : GrammarRequest} {s : CoordState}
    {e : HistoryEntry} (h : handledEntry req = some e) :
    (handleGrammarCheck req s).1.checkHistory = insertHistory e s.checkHistory := by
  have hstep := handleGrammarCheck_fst_checkHistory req s
  rw [h] at hstep
  exact hstep

/-- The flags of the entry a completion inserts, per parse branch. -/
theorem handledEntry_flags {req : GrammarRequest} {en : HistoryEntry}
    (hcase : handledEntry req = some en) :
    (en.hasIssues = true ∧ en.noIssues = false) ∨
      (en.hasIssues = false ∧ en.noIssues = true) := by
  unfold handledEntry at hcase
  by_cases hlen : (jsTrim req.text).length < bgMinTextLength
  · simp [hlen] at hcase
  · simp only [hlen, if_false] at hcase
    cases hres : checkGrammarWithAI (jsTrim req.text) req.outcome with
    | error msg => rw [hres] at hcase; cases hcase
    | ok r =>
        rw [hres] at hcase
        simp only [Option.some.injEq] at hcase
        by_cases hi : r.hasIssues
        · rw [if_pos hi] at hcase
          left; rw [← hcase]; exact ⟨rfl, rfl⟩
        · rw [if_neg hi] at hcase
          right; rw [← hcase]; exact ⟨rfl, rfl⟩

/-- Take-50 absorbs an inner take-50 on the appended tail. -/
theorem take_append_take (n : Nat) (xs ys : List HistoryEntry) :
    (xs ++ ys.take n).take n = (xs ++ ys).take n := by
  rw [List.take_append_eq_append_take, List.take_append_eq_append_take, List.take_take]
  have hmin : min (n - xs.length) n = n - xs.length := by omega
  rw [hmin]

/-- Invariant of a run of completions: the history is the newest-first list
of inserted entries over the initial history, trimmed to 50. -/
theorem foldl_handleGrammarCheck_history (rs : List GrammarRequest) :
    ∀ s : CoordState, s.checkHistory.length ≤ 50 →
      (rs.foldl (fun st req => (handleGrammarCheck req st).1) s).checkHistory =
        ((rs.filterMap handledEntry).reverse ++ s.checkHistory).take 50 := by
  induction rs with
  | nil =>
      intro s hle
      simpa using (List.take_of_length_le hle).symm
  | cons r rs ih =>
      intro s hle
      rw [List.foldl_cons]
      cases hcase : handledEntry r with
      | none =>
          have hstep := handleGrammarCheck_hist_none (s := s) hcase
          rw [ih _ (by rw [hstep]; exact hle), hstep, List.filterMap_cons, hcase]
      | some e =>
          have hstep := handleGrammarCheck_hist_some (s := s) hcase
          have hlen1 : ((handleGrammarCheck r s).1).checkHistory.length ≤ 50 := by
            rw [hstep]; exact insertHistory_length_le hle
          rw [ih _ hlen1, hstep, insertHistory_eq_take hle, take_append_take,
            List.filterMap_cons, hcase, List.reverse_cons, List.append_assoc,
            List.singleton_append]

/-- C1: every `SuggestionRecord` that `handleGrammarCheck` adds to history
has `hasIssues` and `noIssues` mutually exclusive with exactly one of them
true. -/
theorem handleGrammarCheck_entry_flags (req : GrammarRequest) (s : CoordState)
    (e : HistoryEntry) (hmem : e ∈ (handleGrammarCheck req s).1.checkHistory)
    (hnew : e ∉ s.checkHistory) :
    (e.hasIssues = true ∧ e.noIssues = false) ∨
      (e.hasIssues = false ∧ e.noIssues = true) := by
  cases hcase : handledEntry req with
  | none =>
      rw [handleGrammarCheck_hist_none hcase] at hmem
      exact absurd hmem hnew
  | some en =>
      rw [handleGrammarCheck_hist_some hcase] at hmem
      rcases mem_insertHistory hmem with he | he
      · subst he; exact handledEntry_flags hcase
      · exact absurd he hnew

/-- Witness for C1: the entry inserted by a sample request into an empty
history has exactly one of the two flags set. -/
theorem handleGrammarCheck_entry_flags_witness :
    (((handleGrammarCheck sampleRequest
        { checkHistory := [], sidePanelPorts := [] }).1.checkHistory.headD
          sampleEntry).hasIssues = true ∧
      ((handleGrammarCheck sampleRequest
        { checkHistory := [], sidePanelPorts := [] }).1.checkHistory.headD
          sampleEntry).noIssues = false) ∨
    (((handleGrammarCheck sampleRequest
        { checkHistory := [], sidePanelPorts := [] }).1.checkHistory.headD
          sampleEntry).hasIssues = false ∧
      ((handleGrammarCheck sampleRequest
        { checkHistory := [], sidePanelPorts := [] }).1.checkHistory.headD
          sampleEntry).noIssues = true) :=
  handleGrammarCheck_entry_flags sampleRequest
    { checkHistory := [], sidePanelPorts := [] } _ (by decide) (by decide)

/-- C2: after any sequence of `handleGrammarCheck` completions from an empty
history, the history is exactly the newest 50 inserted entries in
insertion order (newest first), and in particular never exceeds 50
entries. -/
theorem handleGrammarCheck_history_bounded (ports : List (String × Option Nat))
    (rs : List GrammarRequest) :
    (rs.foldl (fun st req => (handleGrammarCheck req st).1)
        { checkHistory := [], sidePanelPorts := ports }).checkHistory =
      ((rs.filterMap handledEntry).reverse).take 50 ∧
    (rs.foldl (fun st req => (handleGrammarCheck req st).1)
        { checkHistory := [], sidePanelPorts := ports }).checkHistory.length ≤ 50 := by
  have h := foldl_handleGrammarCheck_history rs
    { checkHistory := [], sidePanelPorts := ports } (by simp)
  rw [List.append_nil] at h
  refine ⟨h, ?_⟩
  rw [h, List.length_take]
  omega

/-- Witness for C2 at a concrete request list. -/
theorem handleGrammarCheck_history_bounded_witness :
    ([sampleRequest].foldl (fun st req => (handleGrammarCheck req st).1)
        { checkHistory := [], sidePanelPorts := [] }).checkHistory =
      (([sampleRequest].filterMap handledEntry).reverse).take 50 ∧
    ([sampleRequest].foldl (fun st req => (handleGrammarCheck req st).1)
        { checkHistory := [], sidePanelPorts := [] }).checkHistory.length ≤ 50 :=
  handleGrammarCheck_history_bounded [] [sampleRequest]

/-! ## Dismissal (C5) -/

/-- Counterexample for C5: with two history entries sharing the key
(timestamp 100, element "a"), dismissing that key removes both entries,
not exactly the first matching one (which would leave `[sampleEntry2]`). -/
theorem handleDismissEntry_counterexample :
    dismissMatches 100 (some "a") sampleEntry = true ∧
    dismissMatches 100 (some "a") sampleEntry2 = true ∧
    (handleDismissEntry (some 100) (some "a") exDismissState).1.checkHistory = [] ∧
    (handleDismissEntry (some 100) (some "a") exDismissState).1.checkHistory
      ≠ [sampleEntry2] := by
  refine ⟨by decide, by decide, by decide, by decide⟩

/-- C5 (amended): a dismissal removes every history entry matching the
timestamp (and the element id when a non-empty one is given), leaves the
port registry unchanged, is a silent no-op when nothing matches, broadcasts
one removal notice to all panels when something was removed, and a viewer
applying the notice drops exactly the matching entries (re-rendered to at
most 10). -/
theorem handleDismissEntry_removes_all_matching (ts : Nat) (eid : Option String)
    (s : CoordState) :
    ((handleDismissEntry (some ts) eid s).1.checkHistory =
        s.checkHistory.filter (fun entry => !(dismissMatches ts eid entry))) ∧
    ((handleDismissEntry (some ts) eid s).1.sidePanelPorts = s.sidePanelPorts) ∧
    (s.checkHistory.filter (fun entry => dismissMatches ts eid entry) = [] →
        handleDismissEntry (some ts) eid s = (s, [])) ∧
    (s.checkHistory.filter (fun entry => dismissMatches ts eid entry) ≠ [] →
        (handleDismissEntry (some ts) eid s).2 =
          broadcastToSidePanels s.sidePanelPorts none (.removeSuggestion ts eid)) ∧
    (∀ localSuggestions : List HistoryEntry,
        spRemoveSuggestion (some ts) eid localSuggestions =
          (localSuggestions.filter (fun entry => !(dismissMatches ts eid entry))).take 10) := by
  refine ⟨?_, ?_, ?_, ?_, fun localSuggestions => rfl⟩
  · simp only [handleDismissEntry]
    split <;> rfl
  · simp only [handleDismissEntry]
    split <;> rfl
  · intro hm
    have hall := List.filter_eq_nil_iff.mp hm
    have hfilter : s.checkHistory.filter (fun entry => !(dismissMatches ts eid entry))
        = s.checkHistory :=
      List.filter_eq_self.mpr (fun e he => by simp [hall e he])
    simp only [handleDismissEntry, hfilter]
    simp
  · intro hne
    have hex : ∃ x ∈ s.checkHistory, dismissMatches ts eid x = true := by
      by_contra hno
      push_neg at hno
      exact hne (List.filter_eq_nil_iff.mpr (fun a ha hx => hno a ha hx))
    obtain ⟨x, hx, hmx⟩ := hex
    have hlt : (s.checkHistory.filter (fun entry => !(dismissMatches ts eid entry))).length
        < s.checkHistory.length :=
      List.length_filter_lt_length_iff_exists.mpr ⟨x, hx, by simp [hmx]⟩
    simp only [handleDismissEntry]
    rw [if_pos (Nat.ne_of_lt hlt)]

/-- Witness for C5 (amended) at a concrete key and state. -/
theorem handleDismissEntry_removes_all_matching_witness :
    ((handleDismissEntry (some 100) (some "a") exDismissState).1.checkHistory =
        exDismissState.checkHistory.filter
          (fun entry => !(dismissMatches 100 (some "a") entry))) ∧
    ((handleDismissEntry (some 100) (some "a") exDismissState).2 =
        broadcastToSidePanels exDismissState.sidePanelPorts none
          (.removeSuggestion 100 (some "a"))) ∧
    (spRemoveSuggestion (some 100) (some "a") [sampleEntry] =
        ([sampleEntry].filter (fun entry => !(dismissMatches 100 (some "a") entry))).take 10) := by
  have h := handleDismissEntry_removes_all_matching 100 (some "a") exDismissState
  exact ⟨h.1, h.2.2.2.1 (by decide), h.2.2.2.2 [sampleEntry]⟩

/-! ## AI-failure path (C6) -/

/-- Every delivery a broadcast produces is a `portMsg` carrying the
broadcast message. -/
theorem mem_broadcastToSidePanels {ports : List (String × Option Nat)}
    {tt : Option Nat} {m : PanelMsg} {e : Effect}
    (he : e ∈ broadcastToSidePanels ports tt m) : ∃ k, e = Effect.portMsg k m := by
  unfold broadcastToSidePanels at he
  rcases List.mem_filterMap.mp he with ⟨p, _, hp⟩
  by_cases hc : tt = none ∨ p.2 = tt ∨ p.2 = none
  · rw [if_pos hc] at hp
    exact ⟨p.1, (Option.some.inj hp).symm⟩
  · rw [if_neg hc] at hp
    cases hp

/-- A predicate that rejects the broadcast message filters the broadcast to
nothing. -/
theorem filter_broadcast_eq_nil (p : Effect → Bool) (ports : List (String × Option Nat))
    (tt : Option Nat) (m : PanelMsg) (hp : ∀ k, p (Effect.portMsg k m) = false) :
    (broadcastToSidePanels ports tt m).filter p = [] := by
  refine List.filter_eq_nil_iff.mpr (fun e he => ?_)
  rcases mem_broadcastToSidePanels he with ⟨k, rfl⟩
  simp [hp k]

/-- A predicate that accepts the broadcast message keeps the whole
broadcast. -/
theorem filter_broadcast_eq_self (p : Effect → Bool) (ports : List (String × Option Nat))
    (tt : Option Nat) (m : PanelMsg) (hp : ∀ k, p (Effect.portMsg k m) = true) :
    (broadcastToSidePanels ports tt m).filter p = broadcastToSidePanels ports tt m := by
  refine List.filter_eq_self.mpr (fun e he => ?_)
  rcases mem_broadcastToSidePanels he with ⟨k, rfl⟩
  exact hp k

/-- C6: when the AI client fails inside `handleGrammarCheck`, the state is
unchanged (in particular nothing is added to history), the `displayError`
deliveries are exactly one broadcast carrying the failure's message, nothing
is sent to the content script, and exactly one AI call was made (no
retry). -/
theorem handleGrammarCheck_failure_effects (req : GrammarRequest) (s : CoordState)
    (emsg : String)
    (hlen : ¬ (jsTrim req.text).length < bgMinTextLength)
    (herr : checkGrammarWithAI (jsTrim req.text) req.outcome = .error emsg) :
    (handleGrammarCheck req s).1 = s ∧
    (handleGrammarCheck req s).2.filter isDisplayErrorEff =
      broadcastToSidePanels s.sidePanelPorts (some req.tabId) (.displayError emsg) ∧
    (handleGrammarCheck req s).2.filter isTabMsgEff = [] ∧
    (handleGrammarCheck req s).2.filter isAiCallEff = [Effect.aiCall (jsTrim req.text)] := by
  have hform : handleGrammarCheck req s =
      (s, ((if hasSidePanelConnection s (some req.tabId)
            then broadcastToSidePanels s.sidePanelPorts (some req.tabId)
                   (.statusUpdate "Checking with Ollama…" "working")
            else []) ++ [Effect.aiCall (jsTrim req.text)])
          ++ broadcastToSidePanels s.sidePanelPorts (some req.tabId) (.displayError emsg)) := by
    unfold handleGrammarCheck
    simp [hlen, herr]
  rw [hform]
  have hstatus : ∀ p : Effect → Bool,
      (∀ k, p (Effect.portMsg k (.statusUpdate "Checking with Ollama…" "working")) = false) →
      ((if hasSidePanelConnection s (some req.tabId)
        then broadcastToSidePanels s.sidePanelPorts (some req.tabId)
               (.statusUpdate "Checking with Ollama…" "working")
        else []) : List Effect).filter p = [] := by
    intro p hp
    split
    · exact filter_broadcast_eq_nil p _ _ _ hp
    · rfl
  refine ⟨rfl, ?_, ?_, ?_⟩
  · rw [List.filter_append, List.filter_append,
      filter_broadcast_eq_self isDisplayErrorEff _ _ (.displayError emsg) (fun k => rfl),
      hstatus isDisplayErrorEff (fun k => rfl)]
    rfl
  · rw [List.filter_append, List.filter_append,
      filter_broadcast_eq_nil isTabMsgEff _ _ (.displayError emsg) (fun k => rfl),
      hstatus isTabMsgEff (fun k => rfl)]
    rfl
  · rw [List.filter_append, List.filter_append,
      filter_broadcast_eq_nil isAiCallEff _ _ (.displayError emsg) (fun k => rfl),
      hstatus isAiCallEff (fun k => rfl)]
    rfl

/-- Witness for C6: a timeout on a concrete request against a state with one
connected panel. -/
theorem handleGrammarCheck_failure_effects_witness :
    (handleGrammarCheck failingRequest noPanelState).1 = noPanelState ∧
    (handleGrammarCheck failingRequest noPanelState).2.filter isDisplayErrorEff =
      broadcastToSidePanels noPanelState.sidePanelPorts (some failingRequest.tabId)
        (.displayError "Request timeout - AI service took too long to respond") ∧
    (handleGrammarCheck failingRequest noPanelState).2.filter isTabMsgEff = [] ∧
    (handleGrammarCheck failingRequest noPanelState).2.filter isAiCallEff =
      [Effect.aiCall (jsTrim failingRequest.text)] :=
  handleGrammarCheck_failure_effects failingRequest noPanelState
    "Request timeout - AI service took too long to respond" (by decide) rfl

/-! ## Short-text guard (C7) -/

/-- A firing `checkGrammar` whose field either is not `f` or carries short
text emits no `checkGrammar` request for `f`. -/
theorem checkGrammarFire_filter_short (elementId text : String) (accepted : Bool)
    (s : ContentState) (f : String)
    (h : elementId = f → (jsTrim text).length < ctMinTextLength) :
    ((checkGrammarFire elementId text accepted s).2).filter (isSendFor f) = [] := by
  by_cases hif : elementId = f
  · subst hif
    have hshort := h rfl
    simp only [checkGrammarFire]
    split_ifs <;> rfl
  · simp only [checkGrammarFire]
    split_ifs <;> simp [isSendFor, hif]

/-- One content-script step whose event (if it concerns `f` at all) carries
short text produces no `checkGrammar` request for `f`. -/
theorem cstep_filter_short (s : ContentState) (ev : CEvent) (f : String)
    (hshort : evShortFor f ev = true) :
    ((cstep s ev).2).filter (isSendFor f) = [] := by
  cases ev with
  | input elementId text editable => cases editable <;> simp [cstep]
  | focus elementId text editable => cases editable <;> simp [cstep]
  | click target =>
      cases target with
      | none => simp [cstep]
      | some p => cases p; simp [cstep]
  | panelStatus isOpen => simp [cstep]
  | timerFire elementId timerId text accepted =>
      simp only [cstep]
      by_cases hl : s.typingTimers.lookup elementId = some timerId
      · rw [if_pos hl]
        refine checkGrammarFire_filter_short elementId text accepted s f (fun hid => ?_)
        simp only [evShortFor, evFieldText, hid] at hshort
        simpa using hshort
      · rw [if_neg hl]
        rfl

/-- C7: for a field whose trimmed text is below the configured minimum
length in every event that touches it, no `checkGrammar` request for that
field is ever sent to the background, regardless of event type (input,
focus, click) and of any timer firing, from any starting state. -/
theorem crun_no_send_below_min (s0 : ContentState) (evs : List CEvent) (f : String)
    (hshort : ∀ ev ∈ evs, evShortFor f ev = true) :
    ((crun s0 evs).2).filter (isSendFor f) = [] := by
  induction evs generalizing s0 with
  | nil => rfl
  | cons ev evs ih =>
      simp only [crun]
      rw [List.filter_append,
        cstep_filter_short s0 ev f (hshort ev (List.mem_cons_self ev evs)),
        ih _ (fun e he => hshort e (List.mem_cons_of_mem ev he))]
      rfl

/-- Witness for C7: a trace of panel-open, input, focus, click and timer
events on field `f1`, all carrying short text, emits no request. -/
theorem crun_no_send_below_min_witness :
    ((crun cinit shortEvents).2).filter (isSendFor "f1") = [] :=
  crun_no_send_below_min cinit shortEvents "f1" (by decide)

end TypeRight
